import Mathlib

/-
Verification of the Selection Model and Reconciler of the paginated
artwork-selection app (React/PrimeReact, `src/App.tsx` and its revision with
dedicated `onRowSelect` / `onRowUnselect` handlers).

The selection state consists of a baseline count (`customSelectionTotal`) and
two exception sets (`selectedRowIds`, `deselectedRowIds`).  All identifiers are
JavaScript numbers, modelled as integers; array indices and page numbers are
naturals, with every arithmetic expression of the source computed over the
integers exactly as JavaScript would.
-/

set_option autoImplicit false

namespace ArtSelection

/-- An artwork row.  Only the identifier is ever consulted by the selection
logic; the display-only fields (title, artist, dates, ...) are omitted. -/
structure Artwork where
  id : ℤ
deriving DecidableEq

/-- The selection-related React state of the `App` component:
`selectedRowIds` (the include set), `deselectedRowIds` (the exclude set) and
`customSelectionTotal` (the baseline). -/
structure SelState where
  selectedRowIds : Finset ℤ
  deselectedRowIds : Finset ℤ
  customSelectionTotal : ℤ
deriving DecidableEq

/-- The page context a handler sees: the fetched `artworks` array and the
`currentPage` number (1-based). -/
structure PageCtx where
  artworks : List Artwork
  currentPage : ℕ
deriving DecidableEq

/-- The fixed page size (`const rowsPerPage = 12`). -/
def rowsPerPage : ℕ := 12

/-- Initial state of the session: baseline 0, both exception sets empty. -/
def initState : SelState := ⟨∅, ∅, 0⟩

/-- The `isRowSelected` helper of `App.tsx`: explicit deselection wins, then
explicit selection, otherwise the row is selected iff its global index
`(currentPage - 1) * rowsPerPage + rowIndex` falls below the baseline. -/
def isRowSelected (s : SelState) (currentPage : ℕ) (rowId : ℤ) (rowIndex : ℕ) :
    Bool :=
  if rowId ∈ s.deselectedRowIds then false
  else if rowId ∈ s.selectedRowIds then true
  else
    decide (((currentPage : ℤ) - 1) * (rowsPerPage : ℤ) + (rowIndex : ℤ) <
      s.customSelectionTotal)

/-- Modelled from the spec (§4.1): the Global Index Calculator
`position(pageNumber, pageSize, offsetWithinPage)`. -/
def specPosition (pageNumber pageSize offsetWithinPage : ℕ) : ℤ :=
  ((pageNumber : ℤ) - 1) * (pageSize : ℤ) + (offsetWithinPage : ℤ)

/-- Modelled from the spec (§3): effective selection of the item with
identifier `id` at virtual position `p`:
`excluded ? false : (included ? true : p < baseline)`. -/
def specEffectiveSelected (s : SelState) (id : ℤ) (p : ℤ) : Bool :=
  if id ∈ s.deselectedRowIds then false
  else if id ∈ s.selectedRowIds then true
  else decide (p < s.customSelectionTotal)

/-- JavaScript `Array.prototype.findIndex` specialised to matching an artwork
by identifier, returning `none` instead of `-1` when the id is absent. -/
def findIndexId : List Artwork → ℤ → Option ℕ
  | [], _ => none
  | a :: rest, id =>
      if a.id = id then some 0 else (findIndexId rest id).map (· + 1)

/-- The `onRowSelect` handler of the revised `App.tsx`: locate the clicked row
on the current page; if its global index is below the baseline, drop it from
`deselectedRowIds`, otherwise add it to `selectedRowIds`. -/
def onRowSelect (ctx : PageCtx) (id : ℤ) (s : SelState) : SelState :=
  match findIndexId ctx.artworks id with
  | none => s
  | some index =>
      if ((ctx.currentPage : ℤ) - 1) * (rowsPerPage : ℤ) + (index : ℤ) <
          s.customSelectionTotal then
        ⟨s.selectedRowIds, s.deselectedRowIds.erase id, s.customSelectionTotal⟩
      else
        ⟨insert id s.selectedRowIds, s.deselectedRowIds,
          s.customSelectionTotal⟩

/-- The `onRowUnselect` handler of the revised `App.tsx`: locate the clicked
row; if its global index is below the baseline, add it to `deselectedRowIds`
and drop it from `selectedRowIds`, otherwise only drop it from
`selectedRowIds`. -/
def onRowUnselect (ctx : PageCtx) (id : ℤ) (s : SelState) : SelState :=
  match findIndexId ctx.artworks id with
  | none => s
  | some index =>
      if ((ctx.currentPage : ℤ) - 1) * (rowsPerPage : ℤ) + (index : ℤ) <
          s.customSelectionTotal then
        ⟨s.selectedRowIds.erase id, insert id s.deselectedRowIds,
          s.customSelectionTotal⟩
      else
        ⟨s.selectedRowIds.erase id, s.deselectedRowIds,
          s.customSelectionTotal⟩

/-- One step of the checked branch of `onSelectAllChange`: force-select `id`
and remove the deselect block when the render-time snapshot `s` held one.  The
guard reads the snapshot, the updates accumulate (React functional updates). -/
def selAllStep (s acc : SelState) (id : ℤ) : SelState :=
  ⟨insert id acc.selectedRowIds,
    if id ∈ s.deselectedRowIds then acc.deselectedRowIds.erase id
    else acc.deselectedRowIds,
    acc.customSelectionTotal⟩

/-- One step of the unchecked branch of `onSelectAllChange`: block `id` via
`deselectedRowIds` and remove a manual selection when the snapshot held one. -/
def unselAllStep (s acc : SelState) (id : ℤ) : SelState :=
  ⟨if id ∈ s.selectedRowIds then acc.selectedRowIds.erase id
    else acc.selectedRowIds,
    insert id acc.deselectedRowIds,
    acc.customSelectionTotal⟩

/-- The `onSelectAllChange` handler: iterate over the identifiers of the
current page, force-selecting all of them (checked) or blocking all of them
(unchecked). -/
def onSelectAllChange (checked : Bool) (ctx : PageCtx) (s : SelState) :
    SelState :=
  let currentPageIds := ctx.artworks.map Artwork.id
  if checked then currentPageIds.foldl (selAllStep s) s
  else currentPageIds.foldl (unselAllStep s) s

/-- Value of a list of decimal digit characters. -/
def digitsVal (l : List Char) : ℕ :=
  l.foldl (fun acc c => 10 * acc + (c.toNat - 48)) 0

/-- Longest decimal-digit prefix of a character list, `none` when empty. -/
def digitsOf (l : List Char) : Option ℕ :=
  let d := l.takeWhile Char.isDigit
  if d.isEmpty then none else some (digitsVal d)

/-- Modelled from the spec boundary: the fragment of JavaScript
`parseInt(string)` relevant here — an optional sign followed by the longest
decimal-digit prefix, `none` standing for `NaN`.  Leading whitespace and the
hexadecimal prefix, irrelevant to a numeric input field, are omitted. -/
def jsParseInt (str : String) : Option ℤ :=
  match str.toList with
  | [] => none
  | c :: rest =>
      if c = '-' then (digitsOf rest).map (fun n => -(n : ℤ))
      else if c = '+' then (digitsOf rest).map (fun n => (n : ℤ))
      else (digitsOf (c :: rest)).map (fun n => (n : ℤ))

/-- The `handleCustomRowSelection` handler: parse the typed count; on `NaN` or
a negative value alert and leave the state alone (second component `true`
records that the alert fired); otherwise clear both exception sets and install
the new baseline. -/
def handleCustomRowSelection (selectCount : String) (s : SelState) :
    SelState × Bool :=
  match jsParseInt selectCount with
  | none => (s, true)
  | some count =>
      if count < 0 then (s, true)
      else (⟨∅, ∅, count⟩, false)

/-- The running total rendered in the header:
`customSelectionTotal + selectedRowIds.size - deselectedRowIds.size`. -/
def dispCount (s : SelState) : ℤ :=
  s.customSelectionTotal + (s.selectedRowIds.card : ℤ) -
    (s.deselectedRowIds.card : ℤ)

/-- A user-level reconciler operation: single-item toggle (select or
unselect), page-level select-all / unselect-all, or baseline replacement. -/
inductive SelOp where
  | rowSel (id : ℤ)
  | rowUnsel (id : ℤ)
  | selAll (checked : Bool)
  | setBase (input : String)
deriving DecidableEq

/-- Dispatch one operation to its handler within a page context. -/
def applySelOp (ctx : PageCtx) (op : SelOp) (s : SelState) : SelState :=
  match op with
  | .rowSel id => onRowSelect ctx id s
  | .rowUnsel id => onRowUnselect ctx id s
  | .selAll checked => onSelectAllChange checked ctx s
  | .setBase input => (handleCustomRowSelection input s).1

/-- Run a sequence of operations, each with its own page context. -/
def runScript (steps : List (PageCtx × SelOp)) (s : SelState) : SelState :=
  steps.foldl (fun st step => applySelOp step.1 step.2 st) s

/-- Whether an operation is a single-item toggle or a baseline replacement
(everything except the page-level select-all / unselect-all). -/
def isToggleStep : SelOp → Bool
  | .selAll _ => false
  | _ => true

/-- A page context agrees with the stable remote ordering `idAt` (position ↦
identifier) when the page number is at least 1 and the artwork at each offset
carries the identifier of its virtual position. -/
def ctxConsistent (idAt : ℕ → ℤ) (ctx : PageCtx) : Prop :=
  1 ≤ ctx.currentPage ∧
    ∀ i, i < ctx.artworks.length →
      (ctx.artworks.getD i ⟨0⟩).id =
        idAt ((ctx.currentPage - 1) * rowsPerPage + i)

instance (idAt : ℕ → ℤ) (ctx : PageCtx) : Decidable (ctxConsistent idAt ctx) :=
  inferInstanceAs (Decidable (_ ∧ _))

/-- The invariants I1/I2 of the Selection Model relative to the remote
ordering `idAt`: the two exception sets are disjoint, every excluded
identifier sits at a virtual position below the baseline, every included
identifier belongs to the collection and sits at no position below the
baseline. -/
def SelInv (idAt : ℕ → ℤ) (s : SelState) : Prop :=
  Disjoint s.selectedRowIds s.deselectedRowIds ∧
    (∀ id ∈ s.deselectedRowIds,
      ∃ n : ℕ, (n : ℤ) < s.customSelectionTotal ∧ idAt n = id) ∧
    (∀ id ∈ s.selectedRowIds,
      ∀ n : ℕ, idAt n = id → s.customSelectionTotal ≤ (n : ℤ)) ∧
    (∀ id ∈ s.selectedRowIds, ∃ n : ℕ, idAt n = id)

/-- Modelled from the spec (§4.2, §4.3): the single-item toggle transition
table, with `markIncluded` / `markExcluded` removing the identifier from the
opposite set as §4.2 requires. -/
def specSingleToggle (desired : Bool) (p : ℤ) (id : ℤ) (s : SelState) :
    SelState :=
  if desired then
    if p < s.customSelectionTotal then
      ⟨s.selectedRowIds, s.deselectedRowIds.erase id, s.customSelectionTotal⟩
    else
      ⟨insert id s.selectedRowIds, s.deselectedRowIds.erase id,
        s.customSelectionTotal⟩
  else
    if p < s.customSelectionTotal then
      ⟨s.selectedRowIds.erase id, insert id s.deselectedRowIds,
        s.customSelectionTotal⟩
    else
      ⟨s.selectedRowIds.erase id, s.deselectedRowIds, s.customSelectionTotal⟩

/-- Modelled from the spec (§4.3, event 2): page-level select-all applies the
single-item toggle transition to every identifier of the page at its own
virtual position. -/
def specPageToggle (checked : Bool) (ctx : PageCtx) (s : SelState) : SelState :=
  ctx.artworks.enum.foldl
    (fun acc p =>
      specSingleToggle checked
        (specPosition ctx.currentPage rowsPerPage p.1) p.2.id acc) s

/-- The single-item toggle transition the handlers actually implement: as the
spec table, except that selecting an item at a position not below the baseline
inserts it into the include set without touching the exclude set. -/
def amendedSingleToggle (desired : Bool) (p : ℤ) (id : ℤ) (s : SelState) :
    SelState :=
  if desired then
    if p < s.customSelectionTotal then
      ⟨s.selectedRowIds, s.deselectedRowIds.erase id, s.customSelectionTotal⟩
    else
      ⟨insert id s.selectedRowIds, s.deselectedRowIds, s.customSelectionTotal⟩
  else
    if p < s.customSelectionTotal then
      ⟨s.selectedRowIds.erase id, insert id s.deselectedRowIds,
        s.customSelectionTotal⟩
    else
      ⟨s.selectedRowIds.erase id, s.deselectedRowIds, s.customSelectionTotal⟩

/-- Number of items of the virtual collection (positions below `N`, with the
identifier at position `n` given by `idAt n`) that the query reports as
selected; position `n` is displayed on page `n / 12 + 1` at offset `n % 12`. -/
def countSelected (idAt : ℕ → ℤ) (N : ℕ) (s : SelState) : ℕ :=
  ((Finset.range N).filter
    (fun n =>
      isRowSelected s (n / rowsPerPage + 1) (idAt n) (n % rowsPerPage) =
        true)).card

/-- Outcome of one page fetch: the decoded payload or a provider failure. -/
inductive FetchError where
  | network
  | decode
deriving DecidableEq

/-- The decoded body of a successful fetch: the page items and the total
record count. -/
structure PageData where
  data : List Artwork
  total : ℤ

/-- The component state touched by `fetchArtworks`. -/
structure FetchState where
  artworks : List Artwork
  totalRecords : ℤ
  loading : Bool
  sel : SelState
deriving DecidableEq

/-- The `fetchArtworks` function: on success install the page items and total;
on failure only log to the console, leaving every piece of state except the
loading flag as it was. -/
def fetchArtworks (page : Except FetchError PageData) (st : FetchState) :
    FetchState :=
  match page with
  | .ok d => ⟨d.data, d.total, false, st.sel⟩
  | .error _ => ⟨st.artworks, st.totalRecords, false, st.sel⟩

/-! Helper lemmas. -/

lemma findIndexId_some {l : List Artwork} {id : ℤ} {i : ℕ}
    (h : findIndexId l id = some i) :
    i < l.length ∧ (l.getD i ⟨0⟩).id = id := by
  induction l generalizing i with
  | nil => simp [findIndexId] at h
  | cons a rest ih =>
      by_cases ha : a.id = id
      · simp [findIndexId, ha] at h
        subst h
        simpa using ha
      · simp [findIndexId, ha] at h
        obtain ⟨j, hj, rfl⟩ := h
        obtain ⟨h1, h2⟩ := ih hj
        exact ⟨by simpa using Nat.succ_lt_succ h1, by simpa using h2⟩

lemma findIndexId_eq_none {l : List Artwork} {id : ℤ}
    (h : ∀ a ∈ l, a.id ≠ id) : findIndexId l id = none := by
  induction l with
  | nil => rfl
  | cons a rest ih =>
      have ha : a.id ≠ id := h a (by simp)
      have hr : findIndexId rest id = none :=
        ih (fun b hb => h b (by simp [hb]))
      simp [findIndexId, ha, hr]

/-! C1: the query agrees with the spec formula at the spec position. -/

/-- C1.  For every state, page number, identifier and page-local offset, the
query `isRowSelected` returns exactly the value of the spec formula
`excluded ? false : (included ? true : p < baseline)` evaluated at the virtual
position `(pageNumber - 1) * pageSize + offsetWithinPage` with page size 12. -/
theorem isRowSelected_eq_spec (s : SelState) (currentPage : ℕ) (rowId : ℤ)
    (rowIndex : ℕ) :
    isRowSelected s currentPage rowId rowIndex =
      specEffectiveSelected s rowId
        (specPosition currentPage rowsPerPage rowIndex) := rfl

/-! C10: exclusion takes precedence over inclusion. -/

/-- C10.  When an identifier is a member of both exception sets the query
reports it as unselected, whatever its virtual position. -/
theorem excluded_overrides_included (s : SelState) (currentPage : ℕ)
    (id : ℤ) (rowIndex : ℕ) (hin : id ∈ s.selectedRowIds)
    (hout : id ∈ s.deselectedRowIds) :
    isRowSelected s currentPage id rowIndex = false := by
  simp [isRowSelected, hout]

/-- Closed instance of `excluded_overrides_included`. -/
theorem excluded_overrides_included_witness :
    isRowSelected ⟨{3}, {3}, 5⟩ 1 3 0 = false :=
  excluded_overrides_included ⟨{3}, {3}, 5⟩ 1 3 0 (by decide) (by decide)

/-! C9: an event for an identifier absent from the page is a silent no-op. -/

/-- C9.  A single-item toggle naming an identifier that is not on the current
page leaves the state untouched, for both the select and the unselect
handler. -/
theorem unknown_id_rejected (ctx : PageCtx) (id : ℤ) (s : SelState)
    (h : ∀ a ∈ ctx.artworks, a.id ≠ id) :
    onRowSelect ctx id s = s ∧ onRowUnselect ctx id s = s := by
  have hf : findIndexId ctx.artworks id = none := findIndexId_eq_none h
  constructor <;> simp [onRowSelect, onRowUnselect, hf]

/-- Closed instance of `unknown_id_rejected`. -/
theorem unknown_id_rejected_witness :
    onRowSelect ⟨[⟨5⟩], 1⟩ 3 ⟨{9}, {2}, 4⟩ = ⟨{9}, {2}, 4⟩ ∧
      onRowUnselect ⟨[⟨5⟩], 1⟩ 3 ⟨{9}, {2}, 4⟩ = ⟨{9}, {2}, 4⟩ :=
  unknown_id_rejected ⟨[⟨5⟩], 1⟩ 3 ⟨{9}, {2}, 4⟩ (by decide)

/-! C7: the single-item toggle handlers are idempotent. -/

/-- C7.  Applying the same single-item toggle event twice in succession yields
the same state as applying it once, for both the select and the unselect
handler. -/
theorem rowToggle_idem (ctx : PageCtx) (id : ℤ) (s : SelState) :
    onRowSelect ctx id (onRowSelect ctx id s) = onRowSelect ctx id s ∧
      onRowUnselect ctx id (onRowUnselect ctx id s) =
        onRowUnselect ctx id s := by
  rcases hf : findIndexId ctx.artworks id with _ | i
  · constructor <;> simp [onRowSelect, onRowUnselect, hf]
  · constructor <;>
      · simp only [onRowSelect, onRowUnselect, hf]
        split <;>
          simp_all [Finset.erase_idem, Finset.insert_idem,
            Finset.erase_insert_of_ne, Finset.Insert.comm]

/-! C2: the single-item toggle transition table. -/

/-- Counterexample to C2 as stated: with baseline 0, identifier 1 displayed at
offset 0 of page 1 and already in the exclude set, selecting it does not
remove it from the exclude set, while the spec transition table does. -/
theorem onRowSelect_ne_specToggle :
    onRowSelect ⟨[⟨1⟩], 1⟩ 1 ⟨∅, {1}, 0⟩ ≠
      specSingleToggle true (specPosition 1 rowsPerPage 0) 1 ⟨∅, {1}, 0⟩ := by
  decide

/-- C2 (amended).  When the identifier is found on the page at offset `i`, the
handlers implement the amended transition table: select with position below
the baseline removes from exclude; select otherwise inserts into include and
leaves exclude untouched; unselect with position below the baseline inserts
into exclude and removes from include; unselect otherwise removes from
include. -/
theorem onRowToggle_amended (ctx : PageCtx) (id : ℤ) (s : SelState) (i : ℕ)
    (hf : findIndexId ctx.artworks id = some i) :
    onRowSelect ctx id s =
        amendedSingleToggle true (specPosition ctx.currentPage rowsPerPage i)
          id s ∧
      onRowUnselect ctx id s =
        amendedSingleToggle false (specPosition ctx.currentPage rowsPerPage i)
          id s := by
  constructor <;>
    · simp only [onRowSelect, onRowUnselect, hf, amendedSingleToggle,
        specPosition]
      split <;> simp_all

/-- Closed instance of `onRowToggle_amended`. -/
theorem onRowToggle_amended_witness :
    onRowSelect ⟨[⟨4⟩], 1⟩ 4 ⟨∅, {4}, 0⟩ =
        amendedSingleToggle true (specPosition 1 rowsPerPage 0) 4
          ⟨∅, {4}, 0⟩ ∧
      onRowUnselect ⟨[⟨4⟩], 1⟩ 4 ⟨∅, {4}, 0⟩ =
        amendedSingleToggle false (specPosition 1 rowsPerPage 0) 4
          ⟨∅, {4}, 0⟩ :=
  onRowToggle_amended ⟨[⟨4⟩], 1⟩ 4 ⟨∅, {4}, 0⟩ 0 (by decide)

/-! C3: page-level select-all / unselect-all. -/

lemma foldl_selAllStep (s : SelState) (ids : List ℤ) :
    ∀ acc : SelState, acc.deselectedRowIds ⊆ s.deselectedRowIds →
      ids.foldl (selAllStep s) acc =
        ⟨acc.selectedRowIds ∪ ids.toFinset,
          acc.deselectedRowIds \ ids.toFinset, acc.customSelectionTotal⟩ := by
  induction ids with
  | nil => intro acc _; cases acc; simp
  | cons id rest ih =>
      intro acc hsub
      have hsub' : (selAllStep s acc id).deselectedRowIds ⊆
          s.deselectedRowIds := by
        by_cases hd : id ∈ s.deselectedRowIds <;>
          simp only [selAllStep, hd, if_pos, if_neg, not_false_iff]
        · exact (Finset.erase_subset _ _).trans hsub
        · simpa using hsub
      rw [List.foldl_cons, ih (selAllStep s acc id) hsub']
      have hnd : id ∉ s.deselectedRowIds → id ∉ acc.deselectedRowIds :=
        fun h hmem => h (hsub hmem)
      by_cases hd : id ∈ s.deselectedRowIds <;>
        · simp only [selAllStep, hd, if_pos, if_neg, not_false_iff,
            List.toFinset_cons]
          congr 1
          · ext x
            simp only [Finset.mem_union, Finset.mem_insert,
              List.mem_toFinset]
            tauto
          · ext x
            simp only [Finset.mem_sdiff, Finset.mem_insert,
              Finset.mem_erase, List.mem_toFinset]
            first
            | tauto
            | (have hno := hnd hd; constructor
               · rintro ⟨hx, hnx⟩
                 refine ⟨hx, ?_⟩
                 rintro (rfl | h)
                 · exact hno hx
                 · exact hnx h
               · rintro ⟨hx, hnx⟩
                 exact ⟨hx, fun h => hnx (Or.inr h)⟩)

lemma foldl_unselAllStep (s : SelState) (ids : List ℤ) :
    ∀ acc : SelState, acc.selectedRowIds ⊆ s.selectedRowIds →
      ids.foldl (unselAllStep s) acc =
        ⟨acc.selectedRowIds \ ids.toFinset,
          acc.deselectedRowIds ∪ ids.toFinset, acc.customSelectionTotal⟩ := by
  induction ids with
  | nil => intro acc _; cases acc; simp
  | cons id rest ih =>
      intro acc hsub
      have hsub' : (unselAllStep s acc id).selectedRowIds ⊆
          s.selectedRowIds := by
        by_cases hd : id ∈ s.selectedRowIds <;>
          simp only [unselAllStep, hd, if_pos, if_neg, not_false_iff]
        · exact (Finset.erase_subset _ _).trans hsub
        · simpa using hsub
      rw [List.foldl_cons, ih (unselAllStep s acc id) hsub']
      have hnd : id ∉ s.selectedRowIds → id ∉ acc.selectedRowIds :=
        fun h hmem => h (hsub hmem)
      by_cases hd : id ∈ s.selectedRowIds <;>
        · simp only [unselAllStep, hd, if_pos, if_neg, not_false_iff,
            List.toFinset_cons]
          congr 1
          · ext x
            simp only [Finset.mem_sdiff, Finset.mem_insert,
              Finset.mem_erase, List.mem_toFinset]
            first
            | tauto
            | (have hno := hnd hd; constructor
               · rintro ⟨hx, hnx⟩
                 refine ⟨hx, ?_⟩
                 rintro (rfl | h)
                 · exact hno hx
                 · exact hnx h
               · rintro ⟨hx, hnx⟩
                 exact ⟨hx, fun h => hnx (Or.inr h)⟩)
          · ext x
            simp only [Finset.mem_union, Finset.mem_insert,
              List.mem_toFinset]
            tauto

/-- Counterexample to C3 as stated: with baseline 15 and identifier 1 at
virtual position 0 (below the baseline), page-level select-all force-adds the
identifier to the include set, whereas applying the single-item toggle
transition to the page would only remove it from the exclude set. -/
theorem selectAll_ne_specPageToggle :
    onSelectAllChange true ⟨[⟨1⟩], 1⟩ ⟨∅, ∅, 15⟩ ≠
        specPageToggle true ⟨[⟨1⟩], 1⟩ ⟨∅, ∅, 15⟩ ∧
      (1 : ℤ) ∈
        (onSelectAllChange true ⟨[⟨1⟩], 1⟩ ⟨∅, ∅, 15⟩).selectedRowIds := by
  constructor <;> decide

/-- C3 (amended).  Page-level select-all force-adds every identifier of the
page to the include set and removes every one of them from the exclude set;
unselect-all removes every page identifier from the include set and force-adds
every one of them to the exclude set — in both cases regardless of the items'
virtual positions, and leaving the baseline unchanged. -/
theorem onSelectAllChange_characterized (checked : Bool) (ctx : PageCtx)
    (s : SelState) :
    onSelectAllChange checked ctx s =
      if checked then
        ⟨s.selectedRowIds ∪ (ctx.artworks.map Artwork.id).toFinset,
          s.deselectedRowIds \ (ctx.artworks.map Artwork.id).toFinset,
          s.customSelectionTotal⟩
      else
        ⟨s.selectedRowIds \ (ctx.artworks.map Artwork.id).toFinset,
          s.deselectedRowIds ∪ (ctx.artworks.map Artwork.id).toFinset,
          s.customSelectionTotal⟩ := by
  cases checked <;>
    simp only [onSelectAllChange, if_pos, if_neg, Bool.false_eq_true,
      not_false_iff,
      foldl_selAllStep s (ctx.artworks.map Artwork.id) s le_rfl,
      foldl_unselAllStep s (ctx.artworks.map Artwork.id) s le_rfl]

/-! C5: baseline replacement. -/

/-- Counterexample to C5 as stated: the non-integer input `3.7` is not
rejected; `parseInt` truncates it to 3, so the handler clears the exception
sets and installs baseline 3 instead of leaving the state unchanged. -/
theorem nonint_input_mutates :
    (handleCustomRowSelection ("3.7") ⟨{5}, {9}, 7⟩).1 ≠ ⟨{5}, {9}, 7⟩ ∧
      (handleCustomRowSelection ("3.7") ⟨{5}, {9}, 7⟩).1 = ⟨∅, ∅, 3⟩ := by
  constructor <;> decide

/-- C5 (amended).  When the input parses (after `parseInt` truncation) to an
integer `k ≥ 0`, the handler installs baseline `k`, clears both exception
sets, does not alert, and the displayed count immediately equals `k`.  When
`parseInt` yields `NaN` or a negative value, the handler alerts and leaves the
state unchanged.  Non-integer numeric input such as `3.7` is not rejected: it
is truncated to its integer prefix and accepted. -/
theorem handleCustom_amended (input : String) (s : SelState) :
    (∀ k : ℤ, jsParseInt input = some k → 0 ≤ k →
        handleCustomRowSelection input s = (⟨∅, ∅, k⟩, false) ∧
          dispCount (handleCustomRowSelection input s).1 = k) ∧
      (jsParseInt input = none →
        handleCustomRowSelection input s = (s, true)) ∧
      (∀ k : ℤ, jsParseInt input = some k → k < 0 →
        handleCustomRowSelection input s = (s, true)) := by
  refine ⟨fun k hk h0 => ?_, fun hn => ?_, fun k hk hneg => ?_⟩
  · have hlt : ¬ k < 0 := not_lt.mpr h0
    constructor <;> simp [handleCustomRowSelection, hk, hlt, dispCount]
  · simp [handleCustomRowSelection, hn]
  · simp [handleCustomRowSelection, hk, hneg]

/-- Closed instance of `handleCustom_amended`. -/
theorem handleCustom_amended_witness :
    handleCustomRowSelection ("15") ⟨{3}, {8}, 2⟩ = (⟨∅, ∅, 15⟩, false) ∧
      dispCount (handleCustomRowSelection ("15") ⟨{3}, {8}, 2⟩).1 = 15 :=
  (handleCustom_amended ("15") ⟨{3}, {8}, 2⟩).1 15 (by decide) (by decide)

/-! C8: provider failure. -/

/-- Counterexample to C8 as stated: after a failed fetch the previously loaded
page is still displayed — the page shown is not empty, and no error state is
recorded anywhere in the component state. -/
theorem fetch_error_page_not_empty :
    (fetchArtworks (.error .network)
        ⟨[⟨7⟩], 100, false, ⟨∅, ∅, 0⟩⟩).artworks ≠ [] := by
  decide

/-- C8 (amended).  A provider failure leaves the Selection Model untouched,
and also leaves the displayed page and the total record count exactly as they
were (the error is only logged to the console; no empty page or error
indicator reaches the display surface). -/
theorem fetch_error_preserves (err : FetchError) (st : FetchState) :
    (fetchArtworks (.error err) st).sel = st.sel ∧
      (fetchArtworks (.error err) st).artworks = st.artworks ∧
      (fetchArtworks (.error err) st).totalRecords = st.totalRecords :=
  ⟨rfl, rfl, rfl⟩

/-! C4: disjointness of the exception sets. -/

lemma found_id_eq {idAt : ℕ → ℤ} {ctx : PageCtx}
    (hctx : ctxConsistent idAt ctx) {id : ℤ} {i : ℕ}
    (hf : findIndexId ctx.artworks id = some i) :
    idAt ((ctx.currentPage - 1) * rowsPerPage + i) = id ∧
      (((ctx.currentPage - 1) * rowsPerPage + i : ℕ) : ℤ) =
        ((ctx.currentPage : ℤ) - 1) * (rowsPerPage : ℤ) + (i : ℤ) := by
  obtain ⟨hlen, hid⟩ := findIndexId_some hf
  refine ⟨(hctx.2 i hlen).symm.trans hid, ?_⟩
  have h1 : 1 ≤ ctx.currentPage := hctx.1
  simp only [rowsPerPage]
  omega

lemma selInv_of_empty (idAt : ℕ → ℤ) (b : ℤ) : SelInv idAt ⟨∅, ∅, b⟩ := by
  refine ⟨by simp, ?_, ?_, ?_⟩ <;> intro id hid <;> simp at hid

lemma selInv_onRowSelect {idAt : ℕ → ℤ} (hinj : Function.Injective idAt)
    {ctx : PageCtx} (hctx : ctxConsistent idAt ctx) (id : ℤ) {s : SelState}
    (hs : SelInv idAt s) : SelInv idAt (onRowSelect ctx id s) := by
  obtain ⟨hdis, hexc, hincLB, hincMem⟩ := hs
  rcases hf : findIndexId ctx.artworks id with _ | i
  · simpa only [onRowSelect, hf] using ⟨hdis, hexc, hincLB, hincMem⟩
  · obtain ⟨hid, hcast⟩ := found_id_eq hctx hf
    simp only [onRowSelect, hf]
    split
    case isTrue hlt =>
      exact ⟨Finset.disjoint_of_subset_right (Finset.erase_subset _ _) hdis,
        fun x hx => hexc x (Finset.mem_of_mem_erase hx), hincLB, hincMem⟩
    case isFalse hge =>
      have hnot : id ∉ s.deselectedRowIds := by
        intro hmem
        obtain ⟨m, hm, hma⟩ := hexc id hmem
        have hm_eq : m = (ctx.currentPage - 1) * rowsPerPage + i :=
          hinj (by rw [hma, hid])
        rw [hm_eq, hcast] at hm
        exact hge hm
      refine ⟨Finset.disjoint_insert_left.mpr ⟨hnot, hdis⟩, hexc, ?_, ?_⟩
      · intro x hx m hma
        rcases Finset.mem_insert.mp hx with rfl | hx'
        · have hm_eq : m = (ctx.currentPage - 1) * rowsPerPage + i :=
            hinj (by rw [hma, hid])
          rw [hm_eq, hcast]
          exact not_lt.mp hge
        · exact hincLB x hx' m hma
      · intro x hx
        rcases Finset.mem_insert.mp hx with rfl | hx'
        · exact ⟨(ctx.currentPage - 1) * rowsPerPage + i, hid⟩
        · exact hincMem x hx'

lemma selInv_onRowUnselect {idAt : ℕ → ℤ} (hinj : Function.Injective idAt)
    {ctx : PageCtx} (hctx : ctxConsistent idAt ctx) (id : ℤ) {s : SelState}
    (hs : SelInv idAt s) : SelInv idAt (onRowUnselect ctx id s) := by
  obtain ⟨hdis, hexc, hincLB, hincMem⟩ := hs
  rcases hf : findIndexId ctx.artworks id with _ | i
  · simpa only [onRowUnselect, hf] using ⟨hdis, hexc, hincLB, hincMem⟩
  · obtain ⟨hid, hcast⟩ := found_id_eq hctx hf
    simp only [onRowUnselect, hf]
    split
    case isTrue hlt =>
      refine ⟨?_, ?_, ?_, ?_⟩
      · exact Finset.disjoint_insert_right.mpr
          ⟨Finset.not_mem_erase _ _,
            Finset.disjoint_of_subset_left (Finset.erase_subset _ _) hdis⟩
      · intro x hx
        rcases Finset.mem_insert.mp hx with rfl | hx'
        · exact ⟨(ctx.currentPage - 1) * rowsPerPage + i, by rw [hcast]; exact hlt, hid⟩
        · exact hexc x hx'
      · exact fun x hx => hincLB x (Finset.mem_of_mem_erase hx)
      · exact fun x hx => hincMem x (Finset.mem_of_mem_erase hx)
    case isFalse hge =>
      exact ⟨Finset.disjoint_of_subset_left (Finset.erase_subset _ _) hdis,
        hexc, fun x hx => hincLB x (Finset.mem_of_mem_erase hx),
        fun x hx => hincMem x (Finset.mem_of_mem_erase hx)⟩

lemma selInv_handleCustom (idAt : ℕ → ℤ) (input : String) {s : SelState}
    (hs : SelInv idAt s) : SelInv idAt (handleCustomRowSelection input s).1 := by
  unfold handleCustomRowSelection
  rcases jsParseInt input with _ | k
  · exact hs
  · dsimp only
    split
    · exact hs
    · exact selInv_of_empty idAt k

lemma selInv_runScript {idAt : ℕ → ℤ} (hinj : Function.Injective idAt)
    (steps : List (PageCtx × SelOp))
    (hsteps : ∀ st ∈ steps,
      ctxConsistent idAt st.1 ∧ isToggleStep st.2 = true) :
    ∀ s : SelState, SelInv idAt s → SelInv idAt (runScript steps s) := by
  induction steps with
  | nil => intro s hs; exact hs
  | cons step rest ih =>
      intro s hs
      obtain ⟨hctx, htog⟩ := hsteps step (by simp)
      have hrest := fun st hst => hsteps st (List.mem_cons_of_mem _ hst)
      have hstep : SelInv idAt (applySelOp step.1 step.2 s) := by
        rcases step with ⟨ctx, op⟩
        rcases op with id | id | checked | input
        · exact selInv_onRowSelect hinj hctx id hs
        · exact selInv_onRowUnselect hinj hctx id hs
        · simp [isToggleStep] at htog
        · exact selInv_handleCustom idAt input hs
      simpa only [runScript, List.foldl_cons] using
        ih hrest (applySelOp step.1 step.2 s) hstep

/-- A concrete operation sequence reaching a state whose exception sets are
not disjoint: with baseline 0 and a one-item page, unselect-all blindly adds
identifier 1 to the exclude set, and a subsequent single-item select adds it
to the include set without removing it from the exclude set. -/
def c4Script : List (PageCtx × SelOp) :=
  [(⟨[⟨1⟩], 1⟩, SelOp.selAll false), (⟨[⟨1⟩], 1⟩, SelOp.rowSel 1)]

/-- Counterexample to C4 as stated: the state reached from the initial state
by the two-operation sequence `c4Script` holds identifier 1 in both the
include and the exclude set. -/
theorem reachable_not_disjoint :
    ¬ Disjoint (runScript c4Script initState).selectedRowIds
        (runScript c4Script initState).deselectedRowIds := by
  have h1 : (1 : ℤ) ∈ (runScript c4Script initState).selectedRowIds := by
    decide
  have h2 : (1 : ℤ) ∈ (runScript c4Script initState).deselectedRowIds := by
    decide
  intro h
  exact (Finset.disjoint_left.mp h h1) h2

/-- C4 (amended).  Along any operation sequence that uses only single-item
toggles and baseline replacements (no page-level select-all / unselect-all),
with every step's page context consistent with a fixed injective remote
ordering, the include and exclude sets stay disjoint from the initial state
onwards. -/
theorem toggles_preserve_disjoint (idAt : ℕ → ℤ)
    (hinj : Function.Injective idAt) (steps : List (PageCtx × SelOp))
    (hsteps : ∀ st ∈ steps,
      ctxConsistent idAt st.1 ∧ isToggleStep st.2 = true) :
    Disjoint (runScript steps initState).selectedRowIds
      (runScript steps initState).deselectedRowIds :=
  (selInv_runScript hinj steps hsteps initState
    (selInv_of_empty idAt 0)).1

/-- Closed instance of `toggles_preserve_disjoint`. -/
theorem toggles_preserve_disjoint_witness :
    Disjoint
      (runScript [(⟨[⟨0⟩], 1⟩, SelOp.rowSel 0)] initState).selectedRowIds
      (runScript [(⟨[⟨0⟩], 1⟩, SelOp.rowSel 0)] initState).deselectedRowIds :=
  toggles_preserve_disjoint (fun n => (n : ℤ)) Nat.cast_injective
    [(⟨[⟨0⟩], 1⟩, SelOp.rowSel 0)] (by decide)

/-! C6: the effective count. -/

lemma isRowSelected_at_pos (s : SelState) (id : ℤ) (n : ℕ) :
    isRowSelected s (n / rowsPerPage + 1) id (n % rowsPerPage) =
      specEffectiveSelected s id (n : ℤ) := by
  have h : (((n / rowsPerPage + 1 : ℕ) : ℤ) - 1) * (rowsPerPage : ℤ) +
      ((n % rowsPerPage : ℕ) : ℤ) = (n : ℤ) := by
    simp only [rowsPerPage]
    omega
  simp only [isRowSelected, specEffectiveSelected, h]

/-- A concrete reachable state on which the displayed count is negative:
select-all then unselect-all on the first page with baseline 0 leaves twelve
identifiers in the exclude set. -/
def c6Script : List (PageCtx × SelOp) :=
  [(⟨[⟨1⟩, ⟨2⟩, ⟨3⟩, ⟨4⟩, ⟨5⟩, ⟨6⟩, ⟨7⟩, ⟨8⟩, ⟨9⟩, ⟨10⟩, ⟨11⟩, ⟨12⟩], 1⟩,
      SelOp.selAll true),
    (⟨[⟨1⟩, ⟨2⟩, ⟨3⟩, ⟨4⟩, ⟨5⟩, ⟨6⟩, ⟨7⟩, ⟨8⟩, ⟨9⟩, ⟨10⟩, ⟨11⟩, ⟨12⟩], 1⟩,
      SelOp.selAll false)]

/-- Counterexample to C6 as stated: after the reachable two-operation sequence
`c6Script` the header displays `-12` while no item of the collection (here
with identifier `n + 1` at position `n`) is effectively selected; in
particular the reported count is negative. -/
theorem dispCount_negative_reachable :
    dispCount (runScript c6Script initState) = -12 ∧
      countSelected (fun n => (n : ℤ) + 1) 20 (runScript c6Script initState) =
        0 := by
  constructor <;> decide

/-- C6 (amended).  In every state satisfying invariants I1/I2 (as every state
reachable without page-level select-all does), the number of items of the
collection the query reports as selected equals the displayed count
`baseline + |include| - |exclude|`; in particular the displayed count is
non-negative.  (`N` bounds the positions involved.) -/
theorem countSelected_matches (idAt : ℕ → ℤ)
    (hinj : Function.Injective idAt) (s : SelState) (hs : SelInv idAt s)
    (N : ℕ) (hb0 : 0 ≤ s.customSelectionTotal)
    (hbN : s.customSelectionTotal ≤ (N : ℤ))
    (hselN : ∀ id ∈ s.selectedRowIds, ∃ n, n < N ∧ idAt n = id) :
    (countSelected idAt N s : ℤ) = dispCount s ∧ 0 ≤ dispCount s := by
  obtain ⟨hdis, hexc, hincLB, hincMem⟩ := hs
  set b := s.customSelectionTotal with hbdef
  set b' := b.toNat with hb'
  have hbb : (b' : ℤ) = b := Int.toNat_of_nonneg hb0
  have hb'N : b' ≤ N := by omega
  have hcount : countSelected idAt N s =
      ((Finset.range N).filter
        (fun n => specEffectiveSelected s (idAt n) (n : ℤ) = true)).card := by
    unfold countSelected
    congr 1
    apply Finset.filter_congr
    intro n _
    rw [isRowSelected_at_pos]
  have hsplit : Finset.range N = Finset.range b' ∪ Finset.Ico b' N := by
    rw [Finset.range_eq_Ico,
      Finset.Ico_union_Ico_eq_Ico (Nat.zero_le b') hb'N]
  have hdisjr : Disjoint (Finset.range b') (Finset.Ico b' N) := by
    rw [Finset.disjoint_left]
    intro a ha hb2
    rw [Finset.mem_range] at ha
    rw [Finset.mem_Ico] at hb2
    omega
  have hlow : (Finset.range b').filter
      (fun n => specEffectiveSelected s (idAt n) (n : ℤ) = true) =
      (Finset.range b').filter (fun n => idAt n ∉ s.deselectedRowIds) := by
    apply Finset.filter_congr
    intro n hn
    rw [Finset.mem_range] at hn
    have hnb : (n : ℤ) < b := by omega
    by_cases h1 : idAt n ∈ s.deselectedRowIds
    · simp [specEffectiveSelected, h1]
    · by_cases h2 : idAt n ∈ s.selectedRowIds
      · simp [specEffectiveSelected, h1, h2]
      · simp [specEffectiveSelected, h1, h2, hnb]
  have hhigh : (Finset.Ico b' N).filter
      (fun n => specEffectiveSelected s (idAt n) (n : ℤ) = true) =
      (Finset.Ico b' N).filter (fun n => idAt n ∈ s.selectedRowIds) := by
    apply Finset.filter_congr
    intro n hn
    rw [Finset.mem_Ico] at hn
    have hnb : ¬ ((n : ℤ) < b) := by omega
    by_cases h2 : idAt n ∈ s.selectedRowIds
    · have h1 : idAt n ∉ s.deselectedRowIds :=
        Finset.disjoint_left.mp hdis h2
      simp [specEffectiveSelected, h1, h2]
    · by_cases h1 : idAt n ∈ s.deselectedRowIds
      · simp [specEffectiveSelected, h1, h2]
      · simp [specEffectiveSelected, h1, h2, hnb]
  have hexcImg : ((Finset.range b').filter
      (fun n => idAt n ∈ s.deselectedRowIds)).image idAt =
      s.deselectedRowIds := by
    ext x
    simp only [Finset.mem_image, Finset.mem_filter, Finset.mem_range]
    constructor
    · rintro ⟨n, ⟨_, hx⟩, rfl⟩
      exact hx
    · intro hx
      obtain ⟨n, hnb, hna⟩ := hexc x hx
      exact ⟨n, ⟨by omega, by rw [hna]; exact hx⟩, hna⟩
  have hexcCard : ((Finset.range b').filter
      (fun n => idAt n ∈ s.deselectedRowIds)).card =
      s.deselectedRowIds.card := by
    conv_rhs => rw [← hexcImg]
    rw [Finset.card_image_of_injective _ hinj]
  have hincImg : ((Finset.Ico b' N).filter
      (fun n => idAt n ∈ s.selectedRowIds)).image idAt =
      s.selectedRowIds := by
    ext x
    simp only [Finset.mem_image, Finset.mem_filter, Finset.mem_Ico]
    constructor
    · rintro ⟨n, ⟨_, hx⟩, rfl⟩
      exact hx
    · intro hx
      obtain ⟨n, hnN, hna⟩ := hselN x hx
      have hlb : b ≤ (n : ℤ) := hincLB x hx n hna
      exact ⟨n, ⟨⟨by omega, hnN⟩, by rw [hna]; exact hx⟩, hna⟩
  have hincCard : ((Finset.Ico b' N).filter
      (fun n => idAt n ∈ s.selectedRowIds)).card =
      s.selectedRowIds.card := by
    conv_rhs => rw [← hincImg]
    rw [Finset.card_image_of_injective _ hinj]
  have hcompl : ((Finset.range b').filter
        (fun n => idAt n ∈ s.deselectedRowIds)).card +
      ((Finset.range b').filter
        (fun n => ¬ idAt n ∈ s.deselectedRowIds)).card = b' := by
    rw [Finset.filter_card_add_filter_neg_card_eq_card, Finset.card_range]
  have hlowCard : ((Finset.range b').filter
      (fun n => idAt n ∉ s.deselectedRowIds)).card =
      b' - s.deselectedRowIds.card := by
    omega
  have hexcLe : s.deselectedRowIds.card ≤ b' := by omega
  have htotal : countSelected idAt N s =
      (b' - s.deselectedRowIds.card) + s.selectedRowIds.card := by
    rw [hcount, hsplit, Finset.filter_union,
      Finset.card_union_of_disjoint
        (Finset.disjoint_filter_filter hdisjr),
      hlow, hhigh, hlowCard, hincCard]
  constructor
  · rw [htotal]
    unfold dispCount
    rw [← hbdef, ← hbb]
    push_cast [hexcLe]
    omega
  · unfold dispCount
    rw [← hbdef, ← hbb]
    omega

/-- Closed instance of `countSelected_matches`. -/
theorem countSelected_matches_witness :
    (countSelected (fun n => (n : ℤ)) 20 ⟨{12}, {0}, 1⟩ : ℤ) =
        dispCount ⟨{12}, {0}, 1⟩ ∧
      0 ≤ dispCount ⟨{12}, {0}, 1⟩ :=
  countSelected_matches (fun n => (n : ℤ)) Nat.cast_injective
    ⟨{12}, {0}, 1⟩
    ⟨by simp,
      fun id hid => by
        simp only [Finset.mem_singleton] at hid
        subst hid
        exact ⟨0, by decide, by norm_num⟩,
      fun id hid n hn => by
        simp only [Finset.mem_singleton] at hid
        subst hid
        have h12 : (n : ℤ) = 12 := hn
        show (1 : ℤ) ≤ (n : ℤ)
        omega,
      fun id hid => by
        simp only [Finset.mem_singleton] at hid
        subst hid
        exact ⟨12, by norm_num⟩⟩
    20 (by decide) (by decide)
    (fun id hid => by
      simp only [Finset.mem_singleton] at hid
      subst hid
      exact ⟨12, by decide, by norm_num⟩)

end ArtSelection
